import Mathlib

/-
Verification development for the structural mass-modeling engine of
src/src/structures/structural_model.py.

Numeric modelling: machine floats are modelled by exact rationals.  Every
arithmetic step of the Python code (numpy ceil, linspace, unique, sums,
scalar division of vectors) is reproduced literally over the rationals.
Exception semantics are modelled with Option / Except: a Python code path
that raises is an Option.none / Except.error value.

External collaborators (geometry layer, material lookup, spar factory,
vector interpolation, surface_centroid_area) are not under src/ and are
treated as typed inputs, exactly as the spec prescribes in its scope
section; structures modelling them carry a doc comment saying so.
-/

namespace UAVStructures

/-- A 3D coordinate vector, componentwise rational arithmetic (models the
numpy 3-vectors; the product type carries the Mathlib additive monoid
structure so list sums behave like numpy element-wise sums). -/
abbrev Vec3 := ℚ × ℚ × ℚ

/-- Componentwise division of a vector by a scalar, as numpy computes
`weighted_coordinates / total_mass`. -/
def vecDiv (v : Vec3) (q : ℚ) : Vec3 :=
  (v.1 / q, v.2.1 / q, v.2.2 / q)

/-- Modelled from the spec: PointMass (from src.aerodynamics.data_structures,
a module not under src/) is an immutable value holding a mass scalar, a
3D coordinate and a provenance tag. -/
structure PointMass where
  mass : ℚ
  coordinates : Vec3
  tag : String
  deriving DecidableEq, Repr

/-- Modelled from the spec: Material (external library) exposes at least a
density. -/
structure Material where
  density : ℚ
  deriving DecidableEq, Repr

/-- Modelled from the spec: GeometricCurve (external geometry layer) owns the
polygon area and area centroid of one cross-section curve. -/
structure GeometricCurve where
  name : String
  area : ℚ
  centroid : Vec3
  deriving DecidableEq, Repr

/-- Modelled from the spec: GeometricSurface (external geometry layer)
exposes a name, a surface-type tag, the ascending spanwise stations, and a
triangulated mesh whose centroid/area pair is what the external
`surface_centroid_area(xx, yy, zz)` computes (the mesh arrays themselves are
not needed by the claims, only the pair the external routine derives from
them). -/
structure GeometricSurface where
  name : String
  surfaceType : String
  wingspans : List ℚ
  centroidArea : Vec3 × ℚ
  deriving DecidableEq, Repr

/-- Modelled from the spec: StructuralSpar (external factory product,
consumed as-is) contributes a mass like the other elements. -/
structure StructuralSpar where
  mass : PointMass
  deriving DecidableEq, Repr

/-- StructuralRib (structural_model.py lines 25-60): a curve, a thickness
and a material. -/
structure StructuralRib where
  curve : GeometricCurve
  thickness : ℚ
  material : Material
  deriving DecidableEq, Repr

/-- StructuralRib.area (line 42): the area of the rib, owned by the curve. -/
def StructuralRib.area (r : StructuralRib) : ℚ :=
  r.curve.area

/-- StructuralRib.centroid (line 47): the centroid of the rib. -/
def StructuralRib.centroid (r : StructuralRib) : Vec3 :=
  r.curve.centroid

/-- StructuralRib.mass (lines 51-60):
`PointMass(area * thickness * material.density, coordinates=centroid, tag="Rib")`. -/
def StructuralRib.mass (r : StructuralRib) : PointMass :=
  { mass := r.area * r.thickness * r.material.density
    coordinates := r.centroid
    tag := "Rib" }

/-- SurfaceCoating (structural_model.py lines 63-125): a surface, a thickness
and a material. -/
structure SurfaceCoating where
  surface : GeometricSurface
  thickness : ℚ
  material : Material
  deriving DecidableEq, Repr

/-- The body of SurfaceCoating._centroid_area (lines 78-94): reads the mesh
arrays xx, yy, zz and calls the external `surface_centroid_area`, returning
the (centroid, area) pair.  The external computation is the surface field
`centroidArea` (see GeometricSurface). -/
def SurfaceCoating.centroidArea (c : SurfaceCoating) : Vec3 × ℚ :=
  c.surface.centroidArea

/-- SurfaceCoating.centroid (lines 96-106): first component of the cached
pair. -/
def SurfaceCoating.centroid (c : SurfaceCoating) : Vec3 :=
  (c.centroidArea).1

/-- SurfaceCoating.area (lines 108-114): second component of the cached
pair. -/
def SurfaceCoating.area (c : SurfaceCoating) : ℚ :=
  (c.centroidArea).2

/-- SurfaceCoating.mass (lines 116-125):
`PointMass(area * thickness * density, coordinates=centroid, tag="SurfaceCoating")`. -/
def SurfaceCoating.mass (c : SurfaceCoating) : PointMass :=
  { mass := c.area * c.thickness * c.material.density
    coordinates := c.centroid
    tag := "SurfaceCoating" }

/-! ### The functools.cached_property mechanism on `_centroid_area`

`@cached_property` stores the computed pair in the instance dictionary on
first access; later accesses return the stored value.  We model the instance
dictionary slot together with a counter of how many times the underlying
triangulated computation actually ran, and reads of `area` / `centroid` as
state transitions. -/

/-- The mutable slot functools.cached_property adds to a SurfaceCoating
instance, plus a count of how many times the underlying computation ran. -/
structure CoatingCacheState where
  cache : Option (Vec3 × ℚ)
  computeCount : ℕ
  deriving DecidableEq, Repr

/-- Fresh instance: nothing cached, computation never run. -/
def initialCacheState : CoatingCacheState :=
  { cache := none, computeCount := 0 }

/-- Accessing `_centroid_area` under cached_property: return the stored pair
if present, otherwise run the computation once and store it. -/
def cachedCentroidArea (c : SurfaceCoating) (st : CoatingCacheState) :
    (Vec3 × ℚ) × CoatingCacheState :=
  match st.cache with
  | some v => (v, st)
  | none =>
      let v := c.centroidArea
      (v, { cache := some v, computeCount := st.computeCount + 1 })

/-- A public read of a SurfaceCoating: either the `area` property or the
`centroid` property. -/
inductive CoatingRead where
  | areaRead
  | centroidRead
  deriving DecidableEq, Repr

/-- One property access: both properties go through `_centroid_area` and
project one component of the pair. -/
def performRead (c : SurfaceCoating) (r : CoatingRead) (st : CoatingCacheState) :
    (Vec3 ⊕ ℚ) × CoatingCacheState :=
  let (va, st') := cachedCentroidArea c st
  match r with
  | .centroidRead => (Sum.inl va.1, st')
  | .areaRead => (Sum.inr va.2, st')

/-- Run a sequence of property reads against one coating instance, returning
the observed values and the final instance state. -/
def runReads (c : SurfaceCoating) : List CoatingRead → CoatingCacheState →
    List (Vec3 ⊕ ℚ) × CoatingCacheState
  | [], st => ([], st)
  | r :: rs, st =>
      let (o, st') := performRead c r st
      let (os, st'') := runReads c rs st'
      (o :: os, st'')

/-! ### Rib placement (SurfaceStructure.calculate_ribs, lines 177-212)

The positions part (lines 187-197):
```
n_ribs = np.ceil((wingspans[1:] - wingspans[:-1]) / max_spacing)
section_ribs = [np.linspace(wingspans[i], wingspans[i + 1], int(n + 1))
                for i, n in enumerate(n_ribs)]
rib_positions = np.unique(np.concatenate(section_ribs))
```
The pairing of `wingspans[1:]` with `wingspans[:-1]` is the list of
consecutive station pairs; `np.ceil` of the exact rational quotient is
`Int.ceil`; `int(n + 1)` on the integral float `n` is `⌈...⌉ + 1`.
`np.linspace(a, b, num)` raises for a negative sample count (modelled as
none), returns `[]` for `num = 0`, `[a]` for `num = 1`, and otherwise the
`num` points `a + (b - a) * i / (num - 1)` whose first and last entries are
exactly `a` and `b`.  `np.concatenate` of the empty list of arrays (which
happens exactly when there is no station pair) raises ValueError (modelled
as none), and `np.unique` sorts ascending and removes duplicates. -/

/-- The number of samples `int(n + 1)` the code requests from np.linspace for
one interval: `n = ceil((b - a) / max_spacing)`. -/
def numSamples (a b maxSpacing : ℚ) : ℤ :=
  ⌈(b - a) / maxSpacing⌉ + 1

/-- The value list of `np.linspace(a, b, num)` for a non-negative sample
count (num = 1 returns just the start point; otherwise evenly spaced points
including both endpoints exactly). -/
def linspaceList (a b : ℚ) (num : ℤ) : List ℚ :=
  if num = 1 then [a]
  else (List.range num.toNat).map fun i : ℕ => a + ((b - a) * (i : ℚ)) / ((num : ℚ) - 1)

/-- `np.linspace(a, b, num)`: raises (none) for a negative sample count. -/
def npLinspace (a b : ℚ) (num : ℤ) : Option (List ℚ) :=
  if num < 0 then none else some (linspaceList a b num)

/-- The sample positions the code generates for one consecutive station pair
`p`: `np.linspace(p.1, p.2, int(ceil((p.2 - p.1) / max_spacing) + 1))`. -/
def intervalSamples (maxSpacing : ℚ) (p : ℚ × ℚ) : Option (List ℚ) :=
  npLinspace p.1 p.2 (numSamples p.1 p.2 maxSpacing)

/-- Total-function value of `intervalSamples` (its value whenever the sample
count is non-negative); proof device used to state lemmas. -/
def intervalSamplesT (maxSpacing : ℚ) (p : ℚ × ℚ) : List ℚ :=
  linspaceList p.1 p.2 (numSamples p.1 p.2 maxSpacing)

/-- The consecutive station pairs `zip(wingspans[:-1], wingspans[1:])`. -/
def consecutivePairs : List ℚ → List (ℚ × ℚ)
  | a :: b :: rest => (a, b) :: consecutivePairs (b :: rest)
  | _ => []

/-- The Python list comprehension building `section_ribs`: evaluates the
per-interval linspace calls left to right, propagating the first raised
error. -/
def collectSamples (maxSpacing : ℚ) : List (ℚ × ℚ) → Option (List (List ℚ))
  | [] => some []
  | p :: ps => do
      let s ← intervalSamples maxSpacing p
      let rest ← collectSamples maxSpacing ps
      pure (s :: rest)

/-- `np.unique`: the distinct values, sorted ascending (dedup keeps one copy
of every value, insertion sort orders them; the result is the unique sorted
duplicate-free enumeration of the set of values). -/
def npUnique (l : List ℚ) : List ℚ :=
  (l.dedup).insertionSort (· ≤ ·)

/-- The rib positions computed by SurfaceStructure.calculate_ribs
(lines 187-197).  `np.concatenate(section_ribs)` raises ValueError when
`section_ribs` is the empty list (which happens exactly when wingspans has
fewer than two stations), modelled as none. -/
def calculateRibPositions (wingspans : List ℚ) (maxSpacing : ℚ) : Option (List ℚ) := do
  let sectionRibs ← collectSamples maxSpacing (consecutivePairs wingspans)
  if sectionRibs.isEmpty then none
  else some (npUnique sectionRibs.flatten)

/-! ### Mass aggregation (collect_masses, line 214-215, and the mass
property, lines 217-240) -/

/-- The body of the SurfaceStructure.mass property (lines 227-240) as a pure
function of the collected point masses, per the code:
`weighted_coordinates = sum(m_i * x_i)` (element-wise),
`total_mass = sum(m_i)`, `coordinates = weighted_coordinates / total_mass`.
The property contains no raise statement: with zero elements numpy computes
`0.0 / 0`, whose rational stand-in here is the zero vector (the Python value
is a NaN vector; numpy emits a RuntimeWarning, not an exception). -/
def aggregateMass (pms : List PointMass) (tag : String) : PointMass :=
  let weightedCoordinates := (pms.map fun p => p.mass • p.coordinates).sum
  let totalMass := (pms.map fun p => p.mass).sum
  { mass := totalMass
    coordinates := vecDiv weightedCoordinates totalMass
    tag := tag }

/-- SurfaceStructure (lines 128-136): the element containers attached to one
geometric surface. -/
structure SurfaceStructure where
  surface : GeometricSurface
  spars : List StructuralSpar
  ribs : List StructuralRib
  coatings : List SurfaceCoating
  deriving DecidableEq, Repr

/-- SurfaceStructure.collect_masses (lines 214-215): the masses of
`chain(self.spars, self.ribs, self.coatings)` in declaration order. -/
def SurfaceStructure.collectMasses (s : SurfaceStructure) : List PointMass :=
  s.spars.map StructuralSpar.mass ++ s.ribs.map StructuralRib.mass
    ++ s.coatings.map SurfaceCoating.mass

/-- SurfaceStructure.mass (lines 217-240): the aggregation body applied to
`collect_masses()`, tagged with the owning surface name. -/
def SurfaceStructure.mass (s : SurfaceStructure) : PointMass :=
  aggregateMass s.collectMasses s.surface.name

/-! ### Orchestration: initialize_structure (lines 138-166) and
StructuralModel.__init__ (lines 250-264)

The element factories (the external spar factory, calculate_ribs, the
SurfaceCoating constructor) are modelled at the level of which factory gets
invoked with which configuration sub-dictionary; their numeric output is
settled by the definitions above.  What matters for the claims is the
control flow: `config.get(key)` yields None for an absent key, and the
`if value:` test treats None and the empty dictionary alike (Python
truthiness). -/

/-- A configuration sub-dictionary, modelled as its ordered key/value
entries; only presence and emptiness (Python truthiness) drive the
control flow of initialize_structure. -/
def SubDict := List (String × String)
  deriving DecidableEq, Repr

/-- Python truthiness of `config.get(key)`: None (absent key) and the empty
dictionary are falsy; a non-empty dictionary is truthy. -/
def truthy : Option SubDict → Bool
  | none => false
  | some d => !(List.isEmpty d)

/-- One per-surface configuration mapping with the four optional keys read
by initialize_structure; a field holds none when the key is absent. -/
structure SurfaceConfig where
  main_spar : Option SubDict
  secondary_spar : Option SubDict
  ribs : Option SubDict
  surface_coating : Option SubDict
  deriving DecidableEq, Repr

instance : Inhabited SurfaceConfig :=
  ⟨⟨none, none, none, none⟩⟩

/-- A factory invocation made by initialize_structure, recording which
factory ran with which sub-dictionary of keyword parameters:
`StructuralSpar.create_main_spar`, `StructuralSpar.create_spar`,
`calculate_ribs`, or the `SurfaceCoating` constructor. -/
inductive FactoryCall where
  | createMainSpar (cfg : SubDict)
  | createSpar (cfg : SubDict)
  | calculateRibs (cfg : SubDict)
  | surfaceCoating (cfg : SubDict)
  deriving DecidableEq, Repr

/-- The factory invocations performed by initialize_structure
(lines 138-166), in source order: main spar, secondary spar, ribs, coating;
each guarded by the truthiness of `config.get(key)`. -/
def initCalls (config : SurfaceConfig) : List FactoryCall :=
  (match config.main_spar with
    | some d => if truthy (some d) then [FactoryCall.createMainSpar d] else []
    | none => [])
  ++ (match config.secondary_spar with
    | some d => if truthy (some d) then [FactoryCall.createSpar d] else []
    | none => [])
  ++ (match config.ribs with
    | some d => if truthy (some d) then [FactoryCall.calculateRibs d] else []
    | none => [])
  ++ (match config.surface_coating with
    | some d => if truthy (some d) then [FactoryCall.surfaceCoating d] else []
    | none => [])

/-- The failure raised during StructuralModel.__init__: the lookup
`configuration[surface_type]` raises Python KeyError when the surface type
has no configuration entry (the configuration error of the spec). -/
inductive BuildError where
  | missingConfiguration (surfaceType : String)
  deriving DecidableEq, Repr

/-- One Surface Structure as retained by the model: the surface together
with the factory invocations its immediate initialize_structure() call
performed. -/
structure BuiltStructure where
  surface : GeometricSurface
  calls : List FactoryCall
  deriving DecidableEq, Repr

/-- StructuralModel.__init__ (lines 250-264): for every surface of the
aircraft, in order, look up `configuration[surface_type]` (KeyError when
absent, which aborts construction: no model value is produced), build one
SurfaceStructure and run initialize_structure() immediately, retaining the
structure in the ordered list. -/
def buildModel (surfaces : List GeometricSurface)
    (configuration : List (String × SurfaceConfig)) :
    Except BuildError (List BuiltStructure) :=
  match surfaces with
  | [] => Except.ok []
  | s :: rest =>
      match configuration.lookup s.surfaceType with
      | none => Except.error (BuildError.missingConfiguration s.surfaceType)
      | some cfg => do
          let tail ← buildModel rest configuration
          pure ({ surface := s, calls := initCalls cfg } :: tail)

/-! ### Helper lemmas on the rib-placement machinery -/

lemma consecutivePairs_cons₂ (a b : ℚ) (l : List ℚ) :
    consecutivePairs (a :: b :: l) = (a, b) :: consecutivePairs (b :: l) := rfl

lemma consecutivePairs_eq_nil_iff (ws : List ℚ) :
    consecutivePairs ws = [] ↔ ws.length ≤ 1 := by
  match ws with
  | [] => simp [consecutivePairs]
  | [a] => simp [consecutivePairs]
  | a :: b :: l => simp [consecutivePairs_cons₂]

lemma mem_consecutivePairs_le :
    ∀ {ws : List ℚ}, ws.Chain' (· ≤ ·) →
      ∀ p ∈ consecutivePairs ws, p.1 ≤ p.2
  | [], _, p, hp => by simp [consecutivePairs] at hp
  | [_], _, p, hp => by simp [consecutivePairs] at hp
  | a :: b :: l, h, p, hp => by
      rw [consecutivePairs_cons₂, List.mem_cons] at hp
      rcases hp with hp | hp
      · subst hp; exact (List.chain'_cons.mp h).1
      · exact mem_consecutivePairs_le (List.chain'_cons.mp h).2 p hp

lemma one_le_numSamples {a b m : ℚ} (hm : 0 < m) (hle : a ≤ b) :
    1 ≤ numSamples a b m := by
  have : (0 : ℤ) ≤ ⌈(b - a) / m⌉ :=
    Int.ceil_nonneg (div_nonneg (sub_nonneg.mpr hle) hm.le)
  unfold numSamples
  omega

lemma two_le_numSamples {a b m : ℚ} (hm : 0 < m) (hlt : a < b) :
    2 ≤ numSamples a b m := by
  have : (0 : ℤ) < ⌈(b - a) / m⌉ :=
    Int.ceil_pos.mpr (div_pos (sub_pos.mpr hlt) hm)
  unfold numSamples
  omega

lemma numSamples_self (a m : ℚ) : numSamples a a m = 1 := by
  simp [numSamples]

lemma intervalSamples_eq_some {m : ℚ} {p : ℚ × ℚ} (hm : 0 < m) (hle : p.1 ≤ p.2) :
    intervalSamples m p = some (intervalSamplesT m p) := by
  have h1 := one_le_numSamples (a := p.1) (b := p.2) hm hle
  unfold intervalSamples npLinspace intervalSamplesT
  rw [if_neg (by omega)]

lemma intervalSamplesT_self (m a : ℚ) : intervalSamplesT m (a, a) = [a] := by
  unfold intervalSamplesT
  rw [numSamples_self]
  simp [linspaceList]

lemma intervalSamples_self (m a : ℚ) : intervalSamples m (a, a) = some [a] := by
  unfold intervalSamples npLinspace
  rw [numSamples_self]
  simp [linspaceList]

lemma left_mem_intervalSamplesT {m a b : ℚ} (hm : 0 < m) (hle : a ≤ b) :
    a ∈ intervalSamplesT m (a, b) := by
  have h1 := one_le_numSamples hm hle
  show a ∈ linspaceList a b (numSamples a b m)
  unfold linspaceList
  by_cases hnum : numSamples a b m = 1
  · simp [hnum]
  · rw [if_neg hnum]
    have hmem : 0 ∈ List.range (numSamples a b m).toNat :=
      List.mem_range.mpr (by omega)
    have h := List.mem_map_of_mem
      (fun i : ℕ => a + ((b - a) * (i : ℚ)) / ((numSamples a b m : ℚ) - 1)) hmem
    simpa using h

lemma right_mem_intervalSamplesT {m a b : ℚ} (hm : 0 < m) (hle : a ≤ b) :
    b ∈ intervalSamplesT m (a, b) := by
  rcases eq_or_lt_of_le hle with heq | hlt
  · subst heq
    rw [intervalSamplesT_self]
    simp
  · have h2 := two_le_numSamples hm hlt
    show b ∈ linspaceList a b (numSamples a b m)
    set n := numSamples a b m with hn
    unfold linspaceList
    rw [if_neg (by omega)]
    have hmem : n.toNat - 1 ∈ List.range n.toNat :=
      List.mem_range.mpr (by omega)
    have h := List.mem_map_of_mem
      (fun i : ℕ => a + ((b - a) * (i : ℚ)) / ((n : ℚ) - 1)) hmem
    have hcast : ((n.toNat - 1 : ℕ) : ℚ) = (n : ℚ) - 1 := by
      have h0 : ((n.toNat : ℤ) : ℚ) = (n : ℚ) := by
        exact_mod_cast congrArg (fun z : ℤ => (z : ℚ)) (Int.toNat_of_nonneg (by omega))
      have h1 : 1 ≤ n.toNat := by omega
      rw [Nat.cast_sub h1, Nat.cast_one]
      exact_mod_cast congrArg (fun q : ℚ => q - 1) h0
    have hne : (n : ℚ) - 1 ≠ 0 := by
      have : (2 : ℚ) ≤ (n : ℚ) := by exact_mod_cast h2
      linarith
    have heq : a + ((b - a) * ((n.toNat - 1 : ℕ) : ℚ)) / ((n : ℚ) - 1) = b := by
      rw [hcast, mul_div_assoc, div_self hne, mul_one]
      ring
    simp only [heq] at h
    exact h

lemma collectSamples_eq_map {m : ℚ} :
    ∀ {l : List (ℚ × ℚ)},
      (∀ p ∈ l, intervalSamples m p = some (intervalSamplesT m p)) →
      collectSamples m l = some (l.map (intervalSamplesT m))
  | [], _ => rfl
  | p :: ps, h => by
      have hp := h p (List.mem_cons_self p ps)
      have hrest := collectSamples_eq_map (fun q hq => h q (List.mem_cons_of_mem p hq))
      simp [collectSamples, hp, hrest]

lemma collectSamples_sorted {m : ℚ} {ws : List ℚ} (hm : 0 < m)
    (hch : ws.Chain' (· ≤ ·)) :
    collectSamples m (consecutivePairs ws)
      = some ((consecutivePairs ws).map (intervalSamplesT m)) :=
  collectSamples_eq_map fun p hp =>
    intervalSamples_eq_some hm (mem_consecutivePairs_le hch p hp)

lemma mem_npUnique {l : List ℚ} {x : ℚ} : x ∈ npUnique l ↔ x ∈ l := by
  unfold npUnique
  rw [(List.perm_insertionSort (· ≤ ·) l.dedup).mem_iff, List.mem_dedup]

lemma npUnique_nodup (l : List ℚ) : (npUnique l).Nodup :=
  ((List.perm_insertionSort (· ≤ ·) l.dedup).symm).nodup (List.nodup_dedup l)

lemma npUnique_sorted (l : List ℚ) : (npUnique l).Sorted (· ≤ ·) :=
  List.sorted_insertionSort (· ≤ ·) l.dedup

lemma npUnique_eq_of_toFinset_eq {l₁ l₂ : List ℚ} (h : l₁.toFinset = l₂.toFinset) :
    npUnique l₁ = npUnique l₂ := by
  have hfs : (npUnique l₁).toFinset = (npUnique l₂).toFinset := by
    apply Finset.ext
    intro x
    simp only [List.mem_toFinset, mem_npUnique]
    rw [← List.mem_toFinset, ← List.mem_toFinset (l := l₂), h]
  exact List.eq_of_perm_of_sorted
    (List.perm_of_nodup_nodup_toFinset_eq (npUnique_nodup l₁) (npUnique_nodup l₂) hfs)
    (npUnique_sorted l₁) (npUnique_sorted l₂)

lemma npUnique_eq_of_mem_iff {l r : List ℚ} (hnd : r.Nodup)
    (hsort : r.Sorted (· ≤ ·)) (hmem : ∀ x, x ∈ l ↔ x ∈ r) : npUnique l = r := by
  have hfs : (npUnique l).toFinset = r.toFinset := by
    apply Finset.ext
    intro x
    simp only [List.mem_toFinset, mem_npUnique]
    exact hmem x
  exact List.eq_of_perm_of_sorted
    (List.perm_of_nodup_nodup_toFinset_eq (npUnique_nodup l) hnd hfs)
    (npUnique_sorted l) hsort

lemma cp_append_cons :
    ∀ (u : List ℚ) (x : ℚ) (v : List ℚ),
      consecutivePairs (u ++ x :: v)
        = consecutivePairs (u ++ [x]) ++ consecutivePairs (x :: v)
  | [], x, v => by simp [consecutivePairs]
  | [p], x, v => by simp [consecutivePairs_cons₂, consecutivePairs]
  | p :: q :: u', x, v => by
      have ih := cp_append_cons (q :: u') x v
      simp only [List.cons_append] at ih ⊢
      rw [consecutivePairs_cons₂, consecutivePairs_cons₂]
      simp only [List.cons_append, ih]

lemma getLast_pair_mem :
    ∀ (pre : List ℚ) (hne : pre ≠ []) (a : ℚ),
      (pre.getLast hne, a) ∈ consecutivePairs (pre ++ [a])
  | [], hne, _ => absurd rfl hne
  | [p], _, a => by simp [consecutivePairs_cons₂, consecutivePairs]
  | p :: q :: pre', _, a => by
      have ih := getLast_pair_mem (q :: pre') (by simp) a
      have hlast : (p :: q :: pre').getLast (by simp) = (q :: pre').getLast (by simp) :=
        List.getLast_cons (by simp)
      simp only [List.cons_append] at ih ⊢
      rw [hlast, consecutivePairs_cons₂]
      exact List.mem_cons_of_mem _ ih

lemma mem_flatten_samples {m : ℚ} (hm : 0 < m) :
    ∀ {ws : List ℚ}, ws.Chain' (· ≤ ·) → ∀ x ∈ ws, 2 ≤ ws.length →
      x ∈ ((consecutivePairs ws).map (intervalSamplesT m)).flatten
  | [], _, x, hx, hlen => by simp at hlen
  | [_], _, x, hx, hlen => by simp at hlen
  | a :: b :: l, hch, x, hx, _ => by
      have hab : a ≤ b := (List.chain'_cons.mp hch).1
      have htail : (b :: l).Chain' (· ≤ ·) := (List.chain'_cons.mp hch).2
      rw [consecutivePairs_cons₂]
      simp only [List.map_cons, List.flatten_cons]
      rcases List.mem_cons.mp hx with rfl | hx'
      · exact List.mem_append_left _ (left_mem_intervalSamplesT hm hab)
      · cases l with
        | nil =>
            have hxb : x = b := by simpa using hx'
            subst hxb
            exact List.mem_append_left _ (right_mem_intervalSamplesT hm hab)
        | cons c l' =>
            exact List.mem_append_right _
              (mem_flatten_samples hm htail x hx' (by simp))

lemma dup_flatten_toFinset (m : ℚ) (pre post : List ℚ) (a : ℚ) :
    ((consecutivePairs (pre ++ a :: a :: post)).map (intervalSamplesT m)).flatten.toFinset
      = insert a
          ((consecutivePairs (pre ++ a :: post)).map (intervalSamplesT m)).flatten.toFinset := by
  rw [cp_append_cons pre a (a :: post), cp_append_cons pre a post,
    consecutivePairs_cons₂]
  simp only [List.map_append, List.map_cons, List.flatten_append, List.flatten_cons,
    intervalSamplesT_self, List.singleton_append, List.toFinset_append, List.toFinset_cons,
    Finset.union_insert]

/-! ### Concrete demonstration values used by witnesses and counterexamples -/

/-- A concrete geometric surface used in witnesses. -/
def demoSurface : GeometricSurface :=
  { name := "Main Wing"
    surfaceType := "W"
    wingspans := [0, 1, 5/2]
    centroidArea := ((1/2, 0, 1/10), 3) }

/-- The empty surface structure (no spars, ribs or coatings). -/
def emptyStructure : SurfaceStructure :=
  { surface := demoSurface, spars := [], ribs := [], coatings := [] }

/-! ### Claim theorems -/

/-- C4 counterexample: for a wingspans list with exactly one station the
Python code raises (np.concatenate gets an empty list of per-interval
arrays), modelled as none; in particular it does not return the empty rib
set, refuting the claim that zero ribs are produced without failure. -/
theorem single_station_cex :
    calculateRibPositions [(0 : ℚ)] 1 = none ∧
      calculateRibPositions [(0 : ℚ)] 1 ≠ some [] := by
  constructor
  · rfl
  · intro h
    simp [calculateRibPositions, consecutivePairs, collectSamples] at h

/-- C4 (amended): for every single-station wingspans list and every
max_spacing, calculate_ribs fails (the concatenation of zero per-interval
sample arrays raises ValueError) instead of producing an empty rib list. -/
theorem single_station_raises (s m : ℚ) :
    calculateRibPositions [s] m = none := rfl

/-- C3 counterexample: requesting the composite mass of a Surface Structure
with an empty element sequence does not fail; the mass property has no
raise statement and returns a PointMass whose mass is 0 (its coordinates in
Python are the NaN vector produced by dividing the zero vector by zero). -/
theorem empty_structure_mass_cex :
    emptyStructure.collectMasses = [] ∧ emptyStructure.mass.mass = 0 := by
  constructor
  · rfl
  · rfl

/-- C3 (amended): for every surface, the composite mass of an element-free
Surface Structure is silently returned as a zero-mass PointMass tagged with
the surface name (the Python coordinates are NaN from the 0/0 division;
numpy emits a warning, not an exception, and no AggregationError class
exists anywhere in the code). -/
theorem empty_structure_mass_silent_zero (surface : GeometricSurface) :
    (SurfaceStructure.mk surface [] [] []).collectMasses = [] ∧
      (SurfaceStructure.mk surface [] [] []).mass.mass = 0 ∧
      (SurfaceStructure.mk surface [] [] []).mass.tag = surface.name := by
  refine ⟨rfl, rfl, rfl⟩

/-- C7: mass aggregation is invariant under permutation of the element
sequence: both the total mass and the weighted centroid are sums over the
list, and sums over ℚ and over 3-vectors are commutative-monoid sums. -/
theorem aggregate_mass_perm_invariant (l₁ l₂ : List PointMass) (tag : String)
    (h : l₁.Perm l₂) : aggregateMass l₁ tag = aggregateMass l₂ tag := by
  unfold aggregateMass
  rw [(h.map fun p => p.mass • p.coordinates).sum_eq, (h.map fun p => p.mass).sum_eq]

/-- C7 witness: swapping two concrete point masses leaves the aggregate
unchanged. -/
theorem aggregate_mass_perm_invariant_witness :
    aggregateMass [⟨1, (1, 0, 0), "a"⟩, ⟨3, (0, 2, 0), "b"⟩] "S"
      = aggregateMass [⟨3, (0, 2, 0), "b"⟩, ⟨1, (1, 0, 0), "a"⟩] "S" :=
  aggregate_mass_perm_invariant _ _ "S"
    (List.Perm.swap (⟨3, (0, 2, 0), "b"⟩ : PointMass) (⟨1, (1, 0, 0), "a"⟩ : PointMass) [])

/-- C10: a configuration key bound to an empty dictionary is treated exactly
like an absent key by initialize_structure (presence is tested by the
truthiness of config.get(key)): for each of the four keys, no factory call
of that kind is made and the whole invocation list matches the one for the
configuration with the key removed. -/
theorem falsy_config_key_like_absent (c : SurfaceConfig) :
    initCalls { c with main_spar := some [] } = initCalls { c with main_spar := none } ∧
    initCalls { c with secondary_spar := some [] }
      = initCalls { c with secondary_spar := none } ∧
    initCalls { c with ribs := some [] } = initCalls { c with ribs := none } ∧
    initCalls { c with surface_coating := some [] }
      = initCalls { c with surface_coating := none } := by
  refine ⟨?_, ?_, ?_, ?_⟩ <;> simp [initCalls, truthy]

/-- C8: over any sequence of `area` / `centroid` reads of one Surface
Coating instance starting from a fresh cache, the underlying triangulated
centroid/area computation runs at most once, and every read returns the
corresponding component of that single computed pair, so repeated reads are
identical and area and centroid are two views of one computation. -/
theorem coating_cache_once_consistent (c : SurfaceCoating) (reads : List CoatingRead) :
    (runReads c reads initialCacheState).2.computeCount ≤ 1 ∧
    (runReads c reads initialCacheState).1 = reads.map (fun r =>
      match r with
      | CoatingRead.centroidRead => Sum.inl c.centroidArea.1
      | CoatingRead.areaRead => Sum.inr c.centroidArea.2) ∧
    c.area = c.centroidArea.2 ∧ c.centroid = c.centroidArea.1 := by
  have hcached : ∀ (rs : List CoatingRead) (st : CoatingCacheState),
      st.cache = some c.centroidArea →
      runReads c rs st = (rs.map (fun r =>
        match r with
        | CoatingRead.centroidRead => Sum.inl c.centroidArea.1
        | CoatingRead.areaRead => Sum.inr c.centroidArea.2), st) := by
    intro rs
    induction rs with
    | nil => intro st hst; rfl
    | cons r rs ih =>
        intro st hst
        cases r <;> simp [runReads, performRead, cachedCentroidArea, hst, ih st hst]
  cases reads with
  | nil => exact ⟨by simp [runReads, initialCacheState], rfl, rfl, rfl⟩
  | cons r rs =>
      have hstep := hcached rs
        { cache := some c.centroidArea, computeCount := 1 } rfl
      cases r <;>
        simp [runReads, performRead, cachedCentroidArea, initialCacheState, hstep,
          SurfaceCoating.area, SurfaceCoating.centroid]

lemma smul_vecDiv {q : ℚ} (hq : q ≠ 0) (v : Vec3) : q • vecDiv v q = v := by
  obtain ⟨x, y, z⟩ := v
  have hc : ∀ w : ℚ, q * (w / q) = w := fun w => by field_simp
  simp [vecDiv, Prod.smul_mk, smul_eq_mul, hc]

/-- C2: for every Surface Structure with a non-empty element sequence of
positive-mass elements, the composite mass is the exact sum of the
individual element masses across the spar, rib and coating containers (no
element double-counted or dropped), the total is positive, the centroid is
the exact mass-weighted average (stated multiplicatively: total times
centroid equals the weighted coordinate sum, which pins down the division
by the nonzero total), and the result is tagged with the owning surface
name. -/
theorem surface_structure_mass_conservation (s : SurfaceStructure)
    (hne : s.collectMasses ≠ [])
    (hpos : ∀ p ∈ s.collectMasses, 0 < p.mass) :
    s.mass.mass
        = (s.spars.map fun e => e.mass.mass).sum
          + (s.ribs.map fun r => r.mass.mass).sum
          + (s.coatings.map fun c => c.mass.mass).sum
      ∧ 0 < s.mass.mass
      ∧ s.mass.mass • s.mass.coordinates
          = (s.collectMasses.map fun p => p.mass • p.coordinates).sum
      ∧ s.mass.tag = s.surface.name := by
  have htot : s.mass.mass = (s.collectMasses.map fun p => p.mass).sum := rfl
  have hpos' : 0 < (s.collectMasses.map fun p => p.mass).sum := by
    apply List.sum_pos
    · intro q hq
      obtain ⟨p, hp, rfl⟩ := List.mem_map.mp hq
      exact hpos p hp
    · intro h
      exact hne (by simpa using h)
  refine ⟨?_, ?_, ?_, rfl⟩
  · rw [htot]
    unfold SurfaceStructure.collectMasses
    simp [List.map_append, List.sum_append, Function.comp_def, add_assoc]
  · exact hpos'
  · have hco : s.mass.coordinates
        = vecDiv ((s.collectMasses.map fun p => p.mass • p.coordinates).sum)
            ((s.collectMasses.map fun p => p.mass).sum) := rfl
    rw [hco, htot]
    exact smul_vecDiv (ne_of_gt hpos') _

/-- A concrete spar element used in witnesses. -/
def demoSpar : StructuralSpar :=
  ⟨⟨2, (1, 0, 0), "Spar"⟩⟩

/-- A concrete rib element used in witnesses (area 3, thickness 2,
density 1/2, hence mass 3). -/
def demoRib : StructuralRib :=
  ⟨⟨"W_rib_0", 3, (0, 1, 0)⟩, 2, ⟨1/2⟩⟩

/-- A concrete coating element used in witnesses (area 3 from demoSurface,
thickness 1/10, density 2, hence mass 3/5). -/
def demoCoating : SurfaceCoating :=
  ⟨demoSurface, 1/10, ⟨2⟩⟩

/-- A concrete surface structure with one spar, one rib and one coating. -/
def demoStructure : SurfaceStructure :=
  ⟨demoSurface, [demoSpar], [demoRib], [demoCoating]⟩

/-- C2 witness: the mass-conservation theorem applied to a concrete
structure with one spar, one rib and one coating. -/
theorem surface_structure_mass_conservation_witness :
    demoStructure.mass.mass
        = (demoStructure.spars.map fun e => e.mass.mass).sum
          + (demoStructure.ribs.map fun r => r.mass.mass).sum
          + (demoStructure.coatings.map fun c => c.mass.mass).sum
      ∧ 0 < demoStructure.mass.mass
      ∧ demoStructure.mass.mass • demoStructure.mass.coordinates
          = (demoStructure.collectMasses.map fun p => p.mass • p.coordinates).sum
      ∧ demoStructure.mass.tag = demoStructure.surface.name :=
  surface_structure_mass_conservation demoStructure
    (by
      simp [SurfaceStructure.collectMasses, demoStructure, demoSpar, demoRib, demoCoating])
    (by
      intro p hp
      simp [SurfaceStructure.collectMasses, demoStructure, demoSpar, demoRib, demoCoating,
        StructuralRib.mass, SurfaceCoating.mass, StructuralRib.area, StructuralRib.centroid,
        SurfaceCoating.area, SurfaceCoating.centroid, SurfaceCoating.centroidArea,
        demoSurface] at hp
      rcases hp with rfl | rfl | rfl <;> norm_num)

/-- C6: constructing the Structural Model fails immediately (no model value
is produced) whenever some surface type of the geometry has no entry in the
configuration mapping, the error naming a missing surface type (Python
raises KeyError on the dict lookup, the configuration error of the spec);
and when every surface type has an entry, construction succeeds with
exactly one Surface Structure per surface, in geometry order, each already
initialized from its configuration entry. -/
theorem structural_model_build_spec (surfaces : List GeometricSurface)
    (configuration : List (String × SurfaceConfig)) :
    ((∃ s ∈ surfaces, (configuration.lookup s.surfaceType) = none) →
      ∃ t, buildModel surfaces configuration
        = Except.error (BuildError.missingConfiguration t)) ∧
    ((∀ s ∈ surfaces, (configuration.lookup s.surfaceType).isSome) →
      buildModel surfaces configuration = Except.ok (surfaces.map fun s =>
        { surface := s
          calls := initCalls ((configuration.lookup s.surfaceType).getD default) })) := by
  induction surfaces with
  | nil =>
      constructor
      · rintro ⟨s, hs, _⟩
        simp at hs
      · intro
        rfl
  | cons s rest ih =>
      constructor
      · rintro ⟨t, ht, hnone⟩
        rcases List.mem_cons.mp ht with rfl | htrest
        · exact ⟨t.surfaceType, by simp [buildModel, hnone]⟩
        · cases hlook : configuration.lookup s.surfaceType with
          | none => exact ⟨s.surfaceType, by simp [buildModel, hlook]⟩
          | some cfg =>
              obtain ⟨u, hu⟩ := ih.1 ⟨t, htrest, hnone⟩
              exact ⟨u, by simp [buildModel, hlook, hu]⟩
      · intro hall
        obtain ⟨cfg, hcfg⟩ :=
          Option.isSome_iff_exists.mp (hall s (List.mem_cons_self s rest))
        have hrest := ih.2 fun q hq => hall q (List.mem_cons_of_mem s hq)
        simp [buildModel, hcfg, hrest]

/-- A concrete per-surface configuration used in witnesses: main spar and
ribs enabled, no secondary spar, coating key present but empty. -/
def demoConfig : SurfaceConfig :=
  { main_spar := some [("material", "balsa")]
    secondary_spar := none
    ribs := some [("max_spacing", "0.15"), ("material", "balsa")]
    surface_coating := some [] }

/-- C6 witness: the build theorem applied to one concrete surface, once with
an empty configuration mapping (missing entry, error) and once with an
entry for its surface type (one initialized structure retained). -/
theorem structural_model_build_spec_witness :
    (∃ t, buildModel [demoSurface] []
      = Except.error (BuildError.missingConfiguration t)) ∧
    buildModel [demoSurface] [("W", demoConfig)]
      = Except.ok [{ surface := demoSurface, calls := initCalls demoConfig }] := by
  constructor
  · exact (structural_model_build_spec [demoSurface] []).1
      ⟨demoSurface, by simp, by simp⟩
  · have h := (structural_model_build_spec [demoSurface] [("W", demoConfig)]).2
      (by
        intro q hq
        rw [List.mem_singleton] at hq
        subst hq
        simp [demoSurface, List.lookup])
    simpa [demoSurface, List.lookup] using h

/-! ### Concrete evaluation of the spec example stations [0, 1, 2.5] with
max_spacing 1 -/

lemma numSamples_0_1_1 : numSamples 0 1 1 = 2 := by
  unfold numSamples
  rw [show ((1 : ℚ) - 0) / 1 = 1 from by norm_num, Int.ceil_one]
  decide

lemma ceil_three_halves : ⌈(3/2 : ℚ)⌉ = 2 := by
  rw [Int.ceil_eq_iff]
  constructor <;> norm_num

lemma numSamples_1_52_1 : numSamples 1 (5/2) 1 = 3 := by
  unfold numSamples
  rw [show ((5/2 : ℚ) - 1) / 1 = 3/2 from by norm_num, ceil_three_halves]
  decide

lemma linspace_eval_2 : linspaceList 0 1 2 = [0, 1] := by
  unfold linspaceList
  rw [if_neg (by decide), show Int.toNat 2 = 2 from rfl,
    show List.range 2 = [0, 1] from rfl]
  norm_num

lemma linspace_eval_3 : linspaceList 1 (5/2) 3 = [1, 7/4, 5/2] := by
  unfold linspaceList
  rw [if_neg (by decide), show Int.toNat 3 = 3 from rfl,
    show List.range 3 = [0, 1, 2] from rfl]
  norm_num

lemma intervalSamples_0_1 : intervalSamples 1 ((0 : ℚ), 1) = some [0, 1] := by
  show npLinspace 0 1 (numSamples 0 1 1) = _
  rw [numSamples_0_1_1]
  unfold npLinspace
  rw [if_neg (by decide), linspace_eval_2]

lemma intervalSamples_1_52 : intervalSamples 1 ((1 : ℚ), 5/2) = some [1, 7/4, 5/2] := by
  show npLinspace 1 (5/2) (numSamples 1 (5/2) 1) = _
  rw [numSamples_1_52_1]
  unfold npLinspace
  rw [if_neg (by decide), linspace_eval_3]

lemma collectSamples_example :
    collectSamples 1 [((0 : ℚ), 1), ((1 : ℚ), 5/2)] = some [[0, 1], [1, 7/4, 5/2]] := by
  simp [collectSamples, intervalSamples_0_1, intervalSamples_1_52]

lemma npUnique_example : npUnique [(0 : ℚ), 1, 1, 7/4, 5/2] = [0, 1, 7/4, 5/2] := by
  apply npUnique_eq_of_mem_iff
  · norm_num [List.nodup_cons, List.mem_cons]
  · norm_num [List.sorted_cons, List.mem_cons]
  · intro x
    simp only [List.mem_cons, List.not_mem_nil, or_false]
    tauto

lemma rib_positions_example_eval :
    calculateRibPositions [0, 1, 5/2] 1 = some [0, 1, 7/4, 5/2] := by
  have hcp : consecutivePairs [0, 1, 5/2] = [((0 : ℚ), 1), ((1 : ℚ), 5/2)] := rfl
  have hstep : calculateRibPositions [0, 1, 5/2] 1
      = some (npUnique [(0 : ℚ), 1, 1, 7/4, 5/2]) := by
    unfold calculateRibPositions
    rw [hcp, collectSamples_example]
    rfl
  rw [hstep, npUnique_example]

/-- C1 counterexample: for stations [0, 1, 5/2] and max_spacing 1 the code
places ribs at {0, 1, 7/4, 5/2} (4 ribs); the claimed position set
{0, 1/2, 1, 7/4, 5/2} with 5 ribs is not the output (the first interval is
split into ceil(1) = 1 sub-interval, so no rib appears at 1/2). -/
theorem rib_positions_station_example_cex :
    calculateRibPositions [0, 1, 5/2] 1 ≠ some [0, 1/2, 1, 7/4, 5/2] := by
  rw [rib_positions_example_eval]
  intro h
  simp only [Option.some.injEq, List.cons.injEq] at h
  norm_num at h

/-- C1 (amended): for station positions [0, 1, 2.5] and max_spacing 1.0,
calculate_ribs places ribs exactly at the positions 0, 1, 1.75, 2.5 (4
ribs): interval one is split into ceil(1) = 1 sub-interval giving samples
[0, 1], interval two into ceil(1.5) = 2 sub-intervals giving samples
[1, 1.75, 2.5], and the concatenation is deduplicated and sorted. -/
theorem rib_positions_station_example :
    calculateRibPositions [0, 1, 5/2] 1 = some [0, 1, 7/4, 5/2] :=
  rib_positions_example_eval

/-- C5 counterexample: a strictly increasing single-station wingspans list
with max_spacing 1 yields no rib-position set at all (the code raises), so
the station 0 does not appear in any output set. -/
theorem endpoint_preservation_cex :
    ¬ ∃ l, calculateRibPositions [(0 : ℚ)] 1 = some l ∧ (0 : ℚ) ∈ l := by
  rintro ⟨l, hl, _⟩
  have hnone : calculateRibPositions [(0 : ℚ)] 1 = none := rfl
  rw [hnone] at hl
  cases hl

/-- C5 (amended): for every strictly increasing wingspans list with at
least two stations and every max_spacing greater than 0, calculate_ribs
succeeds and every original station position appears exactly in the
produced rib-position set (with fewer than two stations the code fails
instead of producing a set). -/
theorem calculate_ribs_endpoint_preservation (ws : List ℚ) (m : ℚ) (hm : 0 < m)
    (hsort : ws.Chain' (· < ·)) (hlen : 2 ≤ ws.length) :
    ∃ l, calculateRibPositions ws m = some l ∧ ∀ x ∈ ws, x ∈ l := by
  have hle : ws.Chain' (· ≤ ·) := hsort.imp fun a b hab => le_of_lt hab
  have hcs := collectSamples_sorted hm hle
  have hne : consecutivePairs ws ≠ [] := by
    rw [Ne, consecutivePairs_eq_nil_iff]
    omega
  refine ⟨npUnique ((consecutivePairs ws).map (intervalSamplesT m)).flatten, ?_, ?_⟩
  · unfold calculateRibPositions
    rw [hcs]
    simp [List.isEmpty_iff, hne]
  · intro x hx
    exact mem_npUnique.mpr (mem_flatten_samples hm hle x hx hlen)

/-- C5 witness: the endpoint-preservation theorem applied to the stations
[0, 1, 5/2] with max_spacing 1. -/
theorem calculate_ribs_endpoint_preservation_witness :
    ∃ l, calculateRibPositions [0, 1, 5/2] 1 = some l ∧
      ∀ x ∈ ([0, 1, 5/2] : List ℚ), x ∈ l :=
  calculate_ribs_endpoint_preservation [0, 1, 5/2] 1 (by norm_num)
    (by norm_num [List.chain'_cons]) (by norm_num)

lemma npUnique_singleton (x : ℚ) : npUnique [x] = [x] :=
  npUnique_eq_of_mem_iff (by simp) (by simp) (fun y => by simp)

lemma calc_eval_of_collect {ws : List ℚ} {m : ℚ} {secs : List (List ℚ)}
    (h : collectSamples m (consecutivePairs ws) = some secs) (hsne : secs ≠ []) :
    calculateRibPositions ws m = some (npUnique secs.flatten) := by
  unfold calculateRibPositions
  rw [h]
  simp [List.isEmpty_iff, hsne]

/-- C9: a pair of identical consecutive stations in a monotone wingspans
list is harmless: the degenerate interval gets n = ceil(0 / max_spacing) = 0
sub-intervals (no division by zero anywhere: the linspace call with a single
sample performs no step division), hence exactly one sample, the shared
endpoint, and after deduplication the rib positions are exactly those of the
list with the duplicate removed; a wingspans list of just the two identical
stations yields exactly the shared endpoint. -/
theorem calculate_ribs_degenerate_interval (pre post : List ℚ) (a m : ℚ)
    (hm : 0 < m) (hch : (pre ++ a :: a :: post).Chain' (· ≤ ·))
    (hne : pre ≠ [] ∨ post ≠ []) :
    ⌈(a - a) / m⌉ = 0 ∧ intervalSamples m (a, a) = some [a] ∧
    calculateRibPositions (pre ++ a :: a :: post) m
      = calculateRibPositions (pre ++ a :: post) m ∧
    calculateRibPositions [a, a] m = some [a] := by
  obtain ⟨hpre, hdup, hlink⟩ := List.chain'_append.mp hch
  have hch2 : (a :: post).Chain' (· ≤ ·) := (List.chain'_cons.mp hdup).2
  have hlink2 : ∀ x ∈ pre.getLast?, ∀ y ∈ (a :: post).head?, x ≤ y := by
    intro x hx y hy
    have hy' : a = y := by simpa using hy
    exact hy' ▸ hlink x hx a (by simp)
  have hchR : (pre ++ a :: post).Chain' (· ≤ ·) :=
    List.chain'_append.mpr ⟨hpre, hch2, hlink2⟩
  have hL := collectSamples_sorted hm hch
  have hR := collectSamples_sorted hm hchR
  have hLcp : consecutivePairs (pre ++ a :: a :: post) ≠ [] := by
    rw [Ne, consecutivePairs_eq_nil_iff, List.length_append]
    simp
    omega
  have hRcp : consecutivePairs (pre ++ a :: post) ≠ [] := by
    rw [Ne, consecutivePairs_eq_nil_iff, List.length_append]
    rcases hne with h | h
    · have := List.length_pos.mpr h
      simp
      omega
    · have := List.length_pos.mpr h
      simp
      omega
  have hmemR : a ∈ ((consecutivePairs (pre ++ a :: post)).map (intervalSamplesT m)).flatten := by
    cases post with
    | nil =>
        have hpne : pre ≠ [] := by
          rcases hne with h | h
          · exact h
          · exact absurd rfl h
        have hpair := getLast_pair_mem pre hpne a
        have hlast_le : pre.getLast hpne ≤ a := by
          apply hlink2 _ ?_ a (by simp)
          simp [List.getLast?_eq_getLast pre hpne]
        exact List.mem_flatten.mpr ⟨intervalSamplesT m (pre.getLast hpne, a),
          List.mem_map_of_mem _ hpair, right_mem_intervalSamplesT hm hlast_le⟩
    | cons q post' =>
        have haq : a ≤ q := (List.chain'_cons.mp hch2).1
        have hpair : ((a : ℚ), q) ∈ consecutivePairs (pre ++ a :: q :: post') := by
          rw [cp_append_cons pre a (q :: post')]
          refine List.mem_append_right _ ?_
          rw [consecutivePairs_cons₂]
          exact List.mem_cons_self _ _
        exact List.mem_flatten.mpr ⟨intervalSamplesT m (a, q),
          List.mem_map_of_mem _ hpair, left_mem_intervalSamplesT hm haq⟩
  refine ⟨by simp, intervalSamples_self m a, ?_, ?_⟩
  · rw [calc_eval_of_collect hL (fun h => hLcp (by simpa using h)),
      calc_eval_of_collect hR (fun h => hRcp (by simpa using h))]
    refine congrArg some (npUnique_eq_of_toFinset_eq ?_)
    rw [dup_flatten_toFinset]
    exact Finset.insert_eq_self.mpr (List.mem_toFinset.mpr hmemR)
  · have hcp : consecutivePairs [a, a] = [(a, a)] := rfl
    have hcol : collectSamples m (consecutivePairs [a, a]) = some [[a]] := by
      rw [hcp]
      simp [collectSamples, intervalSamples_self]
    rw [calc_eval_of_collect hcol (by simp)]
    simp [npUnique_singleton]

/-- C9 witness: the degenerate-interval theorem applied to the stations
[0, 1, 1] (duplicate station at 1) with max_spacing 1, whose rib positions
agree with those of [0, 1]. -/
theorem calculate_ribs_degenerate_interval_witness :
    ⌈((1 : ℚ) - 1) / 1⌉ = 0 ∧ intervalSamples 1 ((1 : ℚ), 1) = some [1] ∧
    calculateRibPositions [0, 1, 1] 1 = calculateRibPositions [0, 1] 1 ∧
    calculateRibPositions [(1 : ℚ), 1] 1 = some [1] :=
  calculate_ribs_degenerate_interval [0] [] 1 1 (by norm_num)
    (by norm_num [List.chain'_cons]) (Or.inl (by simp))

end UAVStructures
